import Mathlib

/-!
A verification development for the `orb` CLI (Cloudflare-tunnel route
coordinator).  The definitions below are a shallow embedding of the Go
sources:

* `src/internal/tunnel/validation.go` — input validation (regexes embedded
  as decidable character-level predicates);
* `src/internal/tunnel/config.go` — `IngressRule`, `Config`,
  `EnsureCatchAllLast`, `FindIngressIndex`, `ModifySubdomainPort`,
  `HostnameFor`, `ServiceURL`;
* `src/internal/dns/client.go` — `CreateDNSRoute`, `RemoveDNSRoute`,
  `CreateAccessPolicy`, `RevokeGroupAccess`;
* `src/internal/tunnel/service.go` — `Expose`, `Unexpose`, `Update`,
  including the `defer`-based rollback blocks (modelled by applying the
  deferred function explicitly at every return point, with the values the
  `configSaved` / `dnsAdded` flags have at that point);
* `src/cmd/helpers.go` — `withLock` (flock acquired non-blockingly first,
  then with a bounded timeout).

External effects (file save, Cloudflare API calls, systemctl restart) are
fallible; each operation takes an oracle record fixing the outcome of each
call site, and threads an explicit `World` state (the on-disk config, the
set of DNS records, a restart counter, and an event trace).  YAML
marshalling of `Config` is deterministic, so equality of `Config` values
coincides with byte-equality of the saved file.
-/

namespace Orb

/-- One ingress rule of the cloudflared YAML configuration
(`config.go`, `IngressRule`): a hostname (empty for the catch-all) and a
target service URL. -/
structure IngressRule where
  hostname : String
  service : String
deriving DecidableEq, Repr

/-- The cloudflared YAML configuration (`config.go`, `Config`). -/
structure Config where
  tunnel : String
  credentialsFile : String
  ingress : List IngressRule
deriving DecidableEq, Repr

/-! ### Validation (`validation.go`) -/

/-- The `[a-z0-9]` — one alternative of the subdomain regex character classes. -/
def isLowerAlnum (c : Char) : Bool :=
  ('a' ≤ c && c ≤ 'z') || ('0' ≤ c && c ≤ '9')

/-- The `[a-z0-9-]` — the middle character class of the subdomain regex. -/
def subdomainChar (c : Char) : Bool :=
  isLowerAlnum c || c = '-'

/-- The regex `^[a-z0-9]([a-z0-9-]{0,61}[a-z0-9])?$` from `validation.go`:
first character alphanumeric; if more characters follow, at most 62 of
them, all middle ones in `[a-z0-9-]`, and the last one alphanumeric. -/
def matchesSubdomainRe (s : String) : Bool :=
  match s.data with
  | [] => false
  | c :: cs =>
    isLowerAlnum c &&
      (cs = [] ||
        (cs.length ≤ 62 && cs.dropLast.all subdomainChar &&
          isLowerAlnum (cs.getLastD 'a')))

/-- The regex `^\d{1,5}$` from `validation.go`. -/
def matchesPortRe (p : String) : Bool :=
  1 ≤ p.length && p.length ≤ 5 && p.data.all (fun c => '0' ≤ c && c ≤ '9')

/-- The `config.go` `ValidServiceTypes`. -/
def ValidServiceTypes : List String :=
  ["http", "https", "tcp", "udp", "ssh", "rdp", "smb", "unix"]

/-- Typed counterparts of the error values the Go code returns
(`fmt.Errorf` strings, here distinguished constructors). -/
inductive Err where
  | invalidSubdomain
  | invalidPort
  | invalidServiceType
  | noIngressRules
  | lastNotCatchAll (hostname : String)
  | conflict (host existing : String)
  | saveFailed
  | dnsListFailed
  | dnsNoRecord (host : String)
  | dnsDeleteFailed
  | dnsCreateFailed
  | restartFailed
  | notExposed (host : String)
  | noRuleForSubdomain (subdomain : String)
  | lockTimeout
  | lockFailed
  | appCreateFailed
  | policyCreateFailed
  | groupListFailed
  | groupNotFound (name : String)
  | policyListFailed
  | appListFailed
  | policyDeleteFailed
deriving DecidableEq, Repr

deriving instance DecidableEq for Except

/-- The `validation.go` `ValidateSubdomain`. -/
def ValidateSubdomain (s : String) : Except Err Unit :=
  if matchesSubdomainRe s then .ok () else .error .invalidSubdomain

/-- The `validation.go` `ValidatePort`. -/
def ValidatePort (p : String) : Except Err Unit :=
  if matchesPortRe p then .ok () else .error .invalidPort

/-- The `validation.go` `ValidateServiceType`. -/
def ValidateServiceType (t : String) : Except Err Unit :=
  if ValidServiceTypes.contains t then .ok () else .error .invalidServiceType

/-! ### Config helpers (`config.go`) -/

/-- The `config.go` `HostnameFor`: `fmt.Sprintf("%s.%s", subdomain, Domain)`. -/
def HostnameFor (domain subdomain : String) : String :=
  subdomain ++ "." ++ domain

/-- The `config.go` `ServiceURL`: `fmt.Sprintf("%s://localhost:%s", serviceType, port)`. -/
def ServiceURL (port serviceType : String) : String :=
  serviceType ++ "://localhost:" ++ port

/-- The `config.go` `EnsureCatchAllLast`: error when there are no ingress rules
or the last rule has a non-empty hostname. -/
def EnsureCatchAllLast (cfg : Config) : Except Err Unit :=
  match cfg.ingress.getLast? with
  | none => .error .noIngressRules
  | some last =>
    if last.hostname ≠ "" then .error (.lastNotCatchAll last.hostname)
    else .ok ()

/-- The loop body of `config.go` `FindIngressIndex`: index of the first
rule whose hostname matches (`-1`, i.e. no index, modelled as `none`). -/
def findIngressIdx : List IngressRule → String → Option Nat
  | [], _ => none
  | r :: rest, host =>
    if r.hostname = host then some 0
    else (findIngressIdx rest host).map (· + 1)

/-- The `config.go` `FindIngressIndex`. -/
def FindIngressIndex (cfg : Config) (hostname : String) : Option Nat :=
  findIngressIdx cfg.ingress hostname

/-- The `config.go` `ModifySubdomainPort`: replace the service of the first
rule whose hostname is `HostnameFor subdomain`. -/
def ModifySubdomainPort (domain : String) (cfg : Config)
    (subdomain port serviceType : String) : Except Err Config :=
  let hostname := HostnameFor domain subdomain
  let service := ServiceURL port serviceType
  match FindIngressIndex cfg hostname with
  | none => .error (.noRuleForSubdomain subdomain)
  | some idx =>
    match cfg.ingress.get? idx with
    | none => .error (.noRuleForSubdomain subdomain)
    | some r => .ok { cfg with ingress := cfg.ingress.set idx { r with service := service } }

/-! ### DNS gateway (`dns/client.go`) -/

/-- Outcome of a Cloudflare `CreateDNSRecord` API call, injected by the
oracle: success, a provider "record already exists" rejection, or any
other provider error. -/
inductive ApiResult where
  | ok
  | alreadyExists
  | otherError
deriving DecidableEq, Repr

/-- The `dns/client.go` `CreateDNSRoute`: issues one `CreateDNSRecord` call and
wraps ANY provider error (the already-exists rejection included) as a
failure; on success the CNAME record for `hostname` is added.  The DNS
zone state is the list of hostnames that currently have a CNAME record. -/
def CreateDNSRoute (res : ApiResult) (dns : List String) (hostname : String) :
    Except Err Unit × List String :=
  match res with
  | .ok => (.ok (), dns ++ [hostname])
  | .alreadyExists => (.error .dnsCreateFailed, dns)
  | .otherError => (.error .dnsCreateFailed, dns)

/-- The `dns/client.go` `RemoveDNSRoute`: lists the CNAME records named
`hostname` (transport outcome `listOk`); an empty listing is the error
"no DNS record found for hostname"; otherwise every listed record is
deleted (transport outcome `deleteOk`). -/
def RemoveDNSRoute (listOk deleteOk : Bool) (dns : List String) (hostname : String) :
    Except Err Unit × List String :=
  if ¬listOk then (.error .dnsListFailed, dns)
  else if dns.filter (· = hostname) = [] then (.error (.dnsNoRecord hostname), dns)
  else if ¬deleteOk then (.error .dnsDeleteFailed, dns)
  else (.ok (), dns.filter (· ≠ hostname))

/-! ### World state and event traces -/

/-- Externally visible events of one coordinator run.  `configSave`,
`dnsCreate`, `dnsRemove`, `restart` and `accessAppCreate` are recorded when
the corresponding external call succeeds; `configLoad` when the config file
is read; the lock events are produced only by `withLock`. -/
inductive Ev where
  | lockAcquire
  | lockRelease
  | configLoad
  | configSave
  | dnsCreate (host : String)
  | dnsRemove (host : String)
  | accessAppCreate (host : String)
  | restart
deriving DecidableEq, Repr

/-- The state the coordinator operations act on: the on-disk cloudflared
config, the DNS zone (hostnames with a CNAME record), a restart counter,
the names of Cloudflare Access applications, and the event trace. -/
structure World where
  disk : Config
  dns : List String
  restarts : Nat
  accessApps : List String
  events : List Ev
deriving DecidableEq, Repr

/-! ### Expose (`service.go` lines 44-136) -/

/-- Per-call-site outcomes of the external calls an `Expose` run makes:
the config save, the `CreateDNSRecord` call, the systemctl restart, and
the calls the deferred rollback block may make (the list/delete halves of
`RemoveDNSRoute` and the restoring save). -/
structure ExposeOracle where
  saveOk : Bool
  createRes : ApiResult
  restartOk : Bool
  rbListOk : Bool
  rbDeleteOk : Bool
  rbSaveOk : Bool
deriving DecidableEq, Repr

/-- The deferred rollback block of `Expose` (`service.go` lines 90-107),
run at every return point with the values `dnsAdded` / `configSaved` have
there: nothing happens unless `dnsAdded`; otherwise the DNS route is
removed (errors printed and ignored) and, if `configSaved`, the original
config is saved back (errors printed and ignored). -/
def exposeRollback (o : ExposeOracle) (orig : Config) (host : String)
    (configSaved dnsAdded : Bool) (w : World) : World :=
  if ¬dnsAdded then w
  else
    let rm := RemoveDNSRoute o.rbListOk o.rbDeleteOk w.dns host
    let w :=
      match rm.1 with
      | .ok _ => { w with dns := rm.2, events := w.events ++ [.dnsRemove host] }
      | .error _ => { w with dns := rm.2 }
    if configSaved then
      if o.rbSaveOk then { w with disk := orig, events := w.events ++ [.configSave] }
      else w
    else w

/-- The `service.go` `Expose`: validate; load the config; require the
catch-all-last invariant; short-circuit or conflict when the hostname is
already mapped; otherwise insert the new rule before the catch-all, save,
create the DNS route, restart — applying the deferred rollback block at
each return point with the flag values it would see there. -/
def Expose (o : ExposeOracle) (domain : String) (w : World)
    (subdomain port serviceType : String) : Except Err Unit × World :=
  match ValidateSubdomain subdomain with
  | .error e => (.error e, w)
  | .ok _ =>
  match ValidatePort port with
  | .error e => (.error e, w)
  | .ok _ =>
  match ValidateServiceType serviceType with
  | .error e => (.error e, w)
  | .ok _ =>
  let host := HostnameFor domain subdomain
  let svc := ServiceURL port serviceType
  let cfg := w.disk
  let w : World := { w with events := w.events ++ [.configLoad] }
  match EnsureCatchAllLast cfg with
  | .error e => (.error e, w)
  | .ok _ =>
  match FindIngressIndex cfg host with
  | some idx =>
    let existing := ((cfg.ingress.get? idx).getD ⟨"", ""⟩).service
    if existing = svc then (.ok (), w)
    else (.error (.conflict host existing), w)
  | none =>
  let orig := cfg
  let catchAll : IngressRule := cfg.ingress.getLastD ⟨"", ""⟩
  let newCfg : Config := { cfg with ingress := cfg.ingress.dropLast ++ [⟨host, svc⟩, catchAll] }
  if ¬o.saveOk then
    (.error .saveFailed, exposeRollback o orig host false false w)
  else
  let w : World := { w with disk := newCfg, events := w.events ++ [.configSave] }
  let created := CreateDNSRoute o.createRes w.dns host
  match created.1 with
  | .error _ =>
    (.error .dnsCreateFailed, exposeRollback o orig host true false { w with dns := created.2 })
  | .ok _ =>
  let w : World := { w with dns := created.2, events := w.events ++ [.dnsCreate host] }
  if ¬o.restartOk then
    (.error .restartFailed, exposeRollback o orig host true true w)
  else
    (.ok (), { w with restarts := w.restarts + 1, events := w.events ++ [.restart] })

/-! ### Unexpose (`service.go` lines 139-213) -/

/-- Per-call-site outcomes of the external calls an `Unexpose` run makes. -/
structure UnexposeOracle where
  saveOk : Bool
  listOk : Bool
  deleteOk : Bool
  restartOk : Bool
  rbCreateRes : ApiResult
  rbSaveOk : Bool
deriving DecidableEq, Repr

/-- The deferred rollback block of `Unexpose` (`service.go` lines 167-184):
nothing happens unless `dnsRemoved`; otherwise the DNS route is re-created
(errors ignored) and, if `configSaved`, the original config is saved back
(errors ignored). -/
def unexposeRollback (o : UnexposeOracle) (orig : Config) (host : String)
    (configSaved dnsRemoved : Bool) (w : World) : World :=
  if ¬dnsRemoved then w
  else
    let cr := CreateDNSRoute o.rbCreateRes w.dns host
    let w :=
      match cr.1 with
      | .ok _ => { w with dns := cr.2, events := w.events ++ [.dnsCreate host] }
      | .error _ => { w with dns := cr.2 }
    if configSaved then
      if o.rbSaveOk then { w with disk := orig, events := w.events ++ [.configSave] }
      else w
    else w

/-- The `service.go` `Unexpose`: validate; load the config; error when the
hostname is not mapped; otherwise remove the rule, save, remove the DNS
route, restart — with the deferred rollback block applied at each return
point. -/
def Unexpose (o : UnexposeOracle) (domain : String) (w : World)
    (subdomain : String) : Except Err Unit × World :=
  match ValidateSubdomain subdomain with
  | .error e => (.error e, w)
  | .ok _ =>
  let host := HostnameFor domain subdomain
  let cfg := w.disk
  let w : World := { w with events := w.events ++ [.configLoad] }
  match FindIngressIndex cfg host with
  | none => (.error (.notExposed host), w)
  | some idx =>
  let orig := cfg
  let newCfg : Config := { cfg with ingress := cfg.ingress.eraseIdx idx }
  if ¬o.saveOk then
    (.error .saveFailed, unexposeRollback o orig host false false w)
  else
  let w : World := { w with disk := newCfg, events := w.events ++ [.configSave] }
  let removed := RemoveDNSRoute o.listOk o.deleteOk w.dns host
  match removed.1 with
  | .error e =>
    (.error e, unexposeRollback o orig host true false { w with dns := removed.2 })
  | .ok _ =>
  let w : World := { w with dns := removed.2, events := w.events ++ [.dnsRemove host] }
  if ¬o.restartOk then
    (.error .restartFailed, unexposeRollback o orig host true true w)
  else
    (.ok (), { w with restarts := w.restarts + 1, events := w.events ++ [.restart] })

/-! ### Update (`service.go` lines 216-271) -/

/-- Per-call-site outcomes of the external calls an `Update` run makes. -/
structure UpdateOracle where
  saveOk : Bool
  restartOk : Bool
  rbSaveOk : Bool
deriving DecidableEq, Repr

/-- The deferred rollback block of `Update` (`service.go` lines 239-248):
when `configSaved`, the original config is saved back (errors ignored). -/
def updateRollback (o : UpdateOracle) (orig : Config)
    (configSaved : Bool) (w : World) : World :=
  if ¬configSaved then w
  else if o.rbSaveOk then { w with disk := orig, events := w.events ++ [.configSave] }
  else w

/-- The `service.go` `Update`: validate; load; rewrite the matching rule's
service via `ModifySubdomainPort`; save; restart — with the deferred
rollback block applied at each return point.  Note that `Update` performs
no catch-all check and no DNS or access call. -/
def Update (o : UpdateOracle) (domain : String) (w : World)
    (subdomain port serviceType : String) : Except Err Unit × World :=
  match ValidateSubdomain subdomain with
  | .error e => (.error e, w)
  | .ok _ =>
  match ValidatePort port with
  | .error e => (.error e, w)
  | .ok _ =>
  match ValidateServiceType serviceType with
  | .error e => (.error e, w)
  | .ok _ =>
  let cfg := w.disk
  let w : World := { w with events := w.events ++ [.configLoad] }
  let orig := cfg
  match ModifySubdomainPort domain cfg subdomain port serviceType with
  | .error e => (.error e, updateRollback o orig false w)
  | .ok newCfg =>
  if ¬o.saveOk then
    (.error .saveFailed, updateRollback o orig false w)
  else
  let w : World := { w with disk := newCfg, events := w.events ++ [.configSave] }
  if ¬o.restartOk then
    (.error .restartFailed, updateRollback o orig true w)
  else
    (.ok (), { w with restarts := w.restarts + 1, events := w.events ++ [.restart] })

/-! ### The host-wide advisory lock (`cmd/helpers.go` `withLock`) -/

/-- Contention scenario for the advisory flock at `LockPath`: the lock is
free (the non-blocking `LOCK_EX|LOCK_NB` attempt succeeds), or held but
released before the 30s timeout (the blocking retry succeeds), or held
past the timeout (the `time.After` branch wins). -/
inductive LockScenario where
  | free
  | heldReleasedInTime
  | heldTimeout
deriving DecidableEq, Repr

/-- The `cmd/helpers.go` `withLock`: acquire the exclusive advisory flock
non-blockingly; if it would block, wait with the bounded `LockTimeout`
(30s), failing with a timeout error; once acquired, run the body and
release the lock via `defer` on every exit path. -/
def withLock (scen : LockScenario) (fn : World → Except Err Unit × World)
    (w : World) : Except Err Unit × World :=
  match scen with
  | .heldTimeout => (.error .lockTimeout, w)
  | _ =>
    let w := { w with events := w.events ++ [.lockAcquire] }
    let r := fn w
    (r.1, { r.2 with events := r.2.events ++ [.lockRelease] })

/-! ### Access policies (`dns/client.go` `CreateAccessPolicy`,
`RevokeGroupAccess`) -/

/-- The include rule of one Access policy: the closed variant of the
dynamic `[]any` include lists of `client.go` (`AccessGroupEmail` /
`AccessGroupAccessGroup`). -/
inductive IncludeRule where
  | email (address : String)
  | group (id : String)
deriving DecidableEq, Repr

/-- One provider-side Access policy, keyed by the application it belongs
to (applications are identified by their `orb-<hostname>` name). -/
structure AccessPolicy where
  appName : String
  name : String
  precedence : Nat
  includeRule : IncludeRule
deriving DecidableEq, Repr

/-- Provider-side Zero-Trust state: the Access applications (by name), the
policies, and the Access groups as (name, id) pairs. -/
structure AccessState where
  apps : List String
  policies : List AccessPolicy
  groups : List (String × String)
deriving DecidableEq, Repr

/-- Per-call-site outcomes of the API calls a `CreateAccessPolicy` run
makes. -/
structure AccessOracle where
  appCreateOk : Bool
  ownerPolicyOk : Bool
  groupListOk : Bool
  groupPolicyOk : Bool
deriving DecidableEq, Repr

/-- The `dns/client.go` `CreateAccessPolicy`: a `"public"` level is a no-op;
otherwise create the `orb-<hostname>` application, always create the owner
email policy at precedence 1, and — unless the level is `"private"` —
resolve the level as a group name and create the precedence-2 group
policy, failing with a group-not-found error (telling the caller to create
the group first) when the name resolves to no group id. -/
def CreateAccessPolicy (o : AccessOracle) (st : AccessState)
    (hostname accessLevel userEmail : String) : Except Err Unit × AccessState :=
  if accessLevel = "public" then (.ok (), st)
  else
    let appName := "orb-" ++ hostname
    if ¬o.appCreateOk then (.error .appCreateFailed, st)
    else
      let st : AccessState := { st with apps := st.apps ++ [appName] }
      if ¬o.ownerPolicyOk then (.error .policyCreateFailed, st)
      else
        let ownerPolicy : AccessPolicy :=
          ⟨appName, "orb-" ++ hostname ++ "-owner", 1, .email userEmail⟩
        let st : AccessState := { st with policies := st.policies ++ [ownerPolicy] }
        if accessLevel ≠ "private" then
          if ¬o.groupListOk then (.error .groupListFailed, st)
          else
            match st.groups.find? (fun g => g.1 = accessLevel) with
            | none => (.error (.groupNotFound accessLevel), st)
            | some g =>
              if ¬o.groupPolicyOk then (.error .policyCreateFailed, st)
              else
                let groupPolicy : AccessPolicy :=
                  ⟨appName, "orb-" ++ hostname ++ "-group", 2, .group g.2⟩
                (.ok (), { st with policies := st.policies ++ [groupPolicy] })
        else (.ok (), st)

/-- Per-call-site outcomes of the API calls a `RevokeGroupAccess` run
makes. -/
structure RevokeOracle where
  listAppsOk : Bool
  listPoliciesOk : Bool
  deleteOk : Bool
deriving DecidableEq, Repr

/-- The policy `RevokeGroupAccess` looks for: a policy of the
`orb-<hostname>` application named `orb-<hostname>-group`. -/
def groupPolicyPred (hostname : String) (p : AccessPolicy) : Bool :=
  p.appName = "orb-" ++ hostname && p.name = "orb-" ++ hostname ++ "-group"

/-- The `dns/client.go` `RevokeGroupAccess`: find the `orb-<hostname>`
application (no application: success, nothing to do); list its policies;
delete only the policy named `orb-<hostname>-group` (none found: success,
already private).  The owner policy is never touched. -/
def RevokeGroupAccess (o : RevokeOracle) (st : AccessState)
    (hostname : String) : Except Err Unit × AccessState :=
  if ¬o.listAppsOk then (.error .appListFailed, st)
  else
    let appName := "orb-" ++ hostname
    if ¬st.apps.contains appName then (.ok (), st)
    else if ¬o.listPoliciesOk then (.error .policyListFailed, st)
    else
      if (st.policies.filter (groupPolicyPred hostname)).isEmpty then (.ok (), st)
      else if ¬o.deleteOk then (.error .policyDeleteFailed, st)
      else (.ok (), { st with policies := st.policies.eraseP (groupPolicyPred hostname) })

/-! ### Helper lemmas -/

/-- The `FindIngressIndex` finds nothing exactly when no rule carries the
hostname. -/
lemma findIngressIdx_eq_none_iff (l : List IngressRule) (host : String) :
    findIngressIdx l host = none ↔ ∀ r ∈ l, r.hostname ≠ host := by
  induction l with
  | nil => simp [findIngressIdx]
  | cons r rest ih =>
    by_cases h : r.hostname = host
    · simp [findIngressIdx, h]
    · simp only [findIngressIdx, if_neg h, Option.map_eq_none', List.mem_cons]
      constructor
      · intro hn s hs
        rcases hs with hs | hs
        · subst hs; exact h
        · exact (ih.mp hn) s hs
      · intro hall
        exact ih.mpr (fun s hs => hall s (Or.inr hs))

/-- Prepending rules that do not carry the hostname shifts the found
index. -/
lemma findIngressIdx_append (l₁ l₂ : List IngressRule) (host : String)
    (h : ∀ r ∈ l₁, r.hostname ≠ host) :
    findIngressIdx (l₁ ++ l₂) host = (findIngressIdx l₂ host).map (· + l₁.length) := by
  induction l₁ with
  | nil => simp
  | cons r rest ih =>
    have hr : r.hostname ≠ host := h r (List.mem_cons_self r rest)
    have hrest : ∀ s ∈ rest, s.hostname ≠ host := fun s hs => h s (List.mem_cons_of_mem r hs)
    rw [List.cons_append]
    simp only [findIngressIdx, if_neg hr]
    rw [ih hrest]
    cases findIngressIdx l₂ host with
    | none => rfl
    | some k =>
      simp only [Option.map_some', List.length_cons, Nat.add_assoc]

/-- Erasing the element at the junction index of `l₁ ++ x :: l₂` removes
exactly `x`. -/
lemma eraseIdx_append_middle {α : Type} (l₁ : List α) (x : α) (l₂ : List α) :
    (l₁ ++ x :: l₂).eraseIdx l₁.length = l₁ ++ l₂ := by
  induction l₁ with
  | nil => simp [List.eraseIdx]
  | cons a rest ih => simp [List.eraseIdx, ih]

/-- Re-attaching the default-read last element of a non-empty list. -/
lemma dropLast_append_getLastD {α : Type} (l : List α) (d : α) (h : l ≠ []) :
    l.dropLast ++ [l.getLastD d] = l := by
  induction l with
  | nil => exact absurd rfl h
  | cons a rest ih =>
    cases rest with
    | nil => simp [List.getLastD]
    | cons b rest' =>
      have := ih (by simp)
      simpa [List.dropLast, List.getLastD] using this

/-- Membership in `dropLast` implies membership. -/
lemma mem_of_mem_dropLast {α : Type} {l : List α} {a : α} (h : a ∈ l.dropLast) : a ∈ l := by
  induction l with
  | nil => simp at h
  | cons b rest ih =>
    cases rest with
    | nil => simp at h
    | cons c rest' =>
      rcases (List.mem_cons).mp (by simpa [List.dropLast] using h) with h' | h'
      · simp [h']
      · exact List.mem_cons_of_mem b (ih (by simpa [List.dropLast] using h'))

/-- The `eraseP` never touches the elements that do not satisfy the
predicate. -/
lemma filter_not_eraseP {α : Type} (p : α → Bool) (l : List α) :
    (l.eraseP p).filter (fun a => !(p a)) = l.filter (fun a => !(p a)) := by
  induction l with
  | nil => simp
  | cons a rest ih =>
    by_cases h : p a
    · simp [List.eraseP_cons, h]
    · simp [List.eraseP_cons, h, ih]

/-- When at most one element satisfies the predicate, erasing the first
match leaves no match. -/
lemma filter_eraseP_of_le_one {α : Type} (p : α → Bool) (l : List α)
    (h : (l.filter p).length ≤ 1) : (l.eraseP p).filter p = [] := by
  induction l with
  | nil => simp
  | cons a rest ih =>
    by_cases ha : p a
    · have h' := h
      rw [List.filter_cons_of_pos ha, List.length_cons] at h'
      have hrest : rest.filter p = [] := List.length_eq_zero.mp (by omega)
      simp [List.eraseP_cons, ha, hrest]
    · have h' : (rest.filter p).length ≤ 1 := by
        simpa [List.filter_cons, ha] using h
      simp [List.eraseP_cons, ha, List.filter_cons, ih h']

/-- Computation of a fully successful `Expose` run on a well-formed config
with a fresh hostname: the rule is inserted before the catch-all, one DNS
record is created, the service is restarted once, and the Access state is
untouched. -/
lemma expose_success_run (o : ExposeOracle) (domain : String) (w : World)
    (subdomain port serviceType : String)
    (hsub : matchesSubdomainRe subdomain = true)
    (hport : matchesPortRe port = true)
    (hty : ValidServiceTypes.contains serviceType = true)
    (hinv : EnsureCatchAllLast w.disk = .ok ())
    (hfresh : FindIngressIndex w.disk (HostnameFor domain subdomain) = none)
    (hsave : o.saveOk = true) (hcreate : o.createRes = .ok)
    (hrestart : o.restartOk = true) :
    Expose o domain w subdomain port serviceType =
      (.ok (),
        ⟨{ w.disk with ingress := w.disk.ingress.dropLast ++
            [⟨HostnameFor domain subdomain, ServiceURL port serviceType⟩,
              w.disk.ingress.getLastD ⟨"", ""⟩] },
          w.dns ++ [HostnameFor domain subdomain],
          w.restarts + 1,
          w.accessApps,
          w.events ++ [.configLoad, .configSave,
            .dnsCreate (HostnameFor domain subdomain), .restart]⟩) := by
  have hty' : serviceType ∈ ValidServiceTypes := by simpa using hty
  unfold Expose
  simp [ValidateSubdomain, ValidatePort, ValidateServiceType, hsub, hport, hty',
    hinv, hfresh, hsave, hcreate, hrestart, CreateDNSRoute]

/-- Computation of an `Expose` run in which the config save succeeded and
the DNS-create call then failed: the deferred block sees `dnsAdded =
false` and returns without restoring anything, so the new config stays on
disk. -/
lemma expose_dnsfail_run (o : ExposeOracle) (domain : String) (w : World)
    (subdomain port serviceType : String)
    (hsub : matchesSubdomainRe subdomain = true)
    (hport : matchesPortRe port = true)
    (hty : ValidServiceTypes.contains serviceType = true)
    (hinv : EnsureCatchAllLast w.disk = .ok ())
    (hfresh : FindIngressIndex w.disk (HostnameFor domain subdomain) = none)
    (hsave : o.saveOk = true) (hcreate : o.createRes ≠ .ok) :
    Expose o domain w subdomain port serviceType =
      (.error .dnsCreateFailed,
        ⟨{ w.disk with ingress := w.disk.ingress.dropLast ++
            [⟨HostnameFor domain subdomain, ServiceURL port serviceType⟩,
              w.disk.ingress.getLastD ⟨"", ""⟩] },
          w.dns, w.restarts, w.accessApps,
          w.events ++ [.configLoad, .configSave]⟩) := by
  have hty' : serviceType ∈ ValidServiceTypes := by simpa using hty
  unfold Expose
  cases hres : o.createRes with
  | ok => exact absurd hres hcreate
  | alreadyExists =>
    simp [ValidateSubdomain, ValidatePort, ValidateServiceType, hsub, hport, hty',
      hinv, hfresh, hsave, hres, CreateDNSRoute, exposeRollback]
  | otherError =>
    simp [ValidateSubdomain, ValidatePort, ValidateServiceType, hsub, hport, hty',
      hinv, hfresh, hsave, hres, CreateDNSRoute, exposeRollback]

/-- Computation of an `Expose` run whose hostname is already mapped: the
run short-circuits after the load, succeeding when the existing target is
identical and failing with the conflict error otherwise, with no change to
the world. -/
lemma expose_existing_run (o : ExposeOracle) (domain : String) (w : World)
    (subdomain port serviceType : String) (idx : Nat)
    (hsub : matchesSubdomainRe subdomain = true)
    (hport : matchesPortRe port = true)
    (hty : ValidServiceTypes.contains serviceType = true)
    (hinv : EnsureCatchAllLast w.disk = .ok ())
    (hidx : FindIngressIndex w.disk (HostnameFor domain subdomain) = some idx) :
    Expose o domain w subdomain port serviceType =
      (if ((w.disk.ingress.get? idx).getD ⟨"", ""⟩).service = ServiceURL port serviceType
        then .ok ()
        else .error (.conflict (HostnameFor domain subdomain)
          ((w.disk.ingress.get? idx).getD ⟨"", ""⟩).service),
        { w with events := w.events ++ [.configLoad] }) := by
  have hty' : serviceType ∈ ValidServiceTypes := by simpa using hty
  unfold Expose
  simp [ValidateSubdomain, ValidatePort, ValidateServiceType, hsub, hport, hty',
    hinv, hidx]
  split <;> simp_all

/-- Computation of an `Expose` run on a config that violates the catch-all
precondition: the run fails right after the load with the precondition
error and changes nothing. -/
lemma expose_precondition_run (o : ExposeOracle) (domain : String) (w : World)
    (subdomain port serviceType : String) (e : Err)
    (hsub : matchesSubdomainRe subdomain = true)
    (hport : matchesPortRe port = true)
    (hty : ValidServiceTypes.contains serviceType = true)
    (hinv : EnsureCatchAllLast w.disk = .error e) :
    Expose o domain w subdomain port serviceType =
      (.error e, { w with events := w.events ++ [.configLoad] }) := by
  have hty' : serviceType ∈ ValidServiceTypes := by simpa using hty
  unfold Expose
  simp [ValidateSubdomain, ValidatePort, ValidateServiceType, hsub, hport, hty', hinv]

/-- Computation of a fully successful `Unexpose` run: the rule at the
found index is removed, the DNS record deleted, one restart issued. -/
lemma unexpose_success_run (o : UnexposeOracle) (domain : String) (w : World)
    (subdomain : String) (idx : Nat)
    (hsub : matchesSubdomainRe subdomain = true)
    (hidx : FindIngressIndex w.disk (HostnameFor domain subdomain) = some idx)
    (hsave : o.saveOk = true) (hlist : o.listOk = true) (hdel : o.deleteOk = true)
    (hrec : w.dns.filter (· = HostnameFor domain subdomain) ≠ [])
    (hrestart : o.restartOk = true) :
    Unexpose o domain w subdomain =
      (.ok (),
        ⟨{ w.disk with ingress := w.disk.ingress.eraseIdx idx },
          w.dns.filter (· ≠ HostnameFor domain subdomain),
          w.restarts + 1,
          w.accessApps,
          w.events ++ [.configLoad, .configSave,
            .dnsRemove (HostnameFor domain subdomain), .restart]⟩) := by
  unfold Unexpose
  simp [ValidateSubdomain, hsub, hidx, hsave, hlist, hdel, hrec, hrestart, RemoveDNSRoute]

/-- Computation of an `Unexpose` run for a hostname that is not mapped:
the run fails right after the load and changes nothing. -/
lemma unexpose_notfound_run (o : UnexposeOracle) (domain : String) (w : World)
    (subdomain : String)
    (hsub : matchesSubdomainRe subdomain = true)
    (hidx : FindIngressIndex w.disk (HostnameFor domain subdomain) = none) :
    Unexpose o domain w subdomain =
      (.error (.notExposed (HostnameFor domain subdomain)),
        { w with events := w.events ++ [.configLoad] }) := by
  unfold Unexpose
  simp [ValidateSubdomain, hsub, hidx]

/-- The lock events among the trace events. -/
def Ev.isLock : Ev → Bool
  | .lockAcquire => true
  | .lockRelease => true
  | _ => false

/-- The `Expose` rollback block emits no lock events. -/
lemma countP_isLock_exposeRollback (o : ExposeOracle) (orig : Config)
    (host : String) (cs da : Bool) (w : World) :
    (exposeRollback o orig host cs da w).events.countP Ev.isLock =
      w.events.countP Ev.isLock := by
  unfold exposeRollback RemoveDNSRoute
  by_cases hl : o.rbListOk <;> by_cases hf : w.dns.filter (· = host) = [] <;>
    by_cases hd : o.rbDeleteOk <;> cases cs <;> cases da <;>
    by_cases hs : o.rbSaveOk <;>
    simp [hl, hf, hd, hs, List.countP_append, List.countP_cons, List.countP_nil, Ev.isLock]

/-- The `Unexpose` rollback block emits no lock events. -/
lemma countP_isLock_unexposeRollback (o : UnexposeOracle) (orig : Config)
    (host : String) (cs dr : Bool) (w : World) :
    (unexposeRollback o orig host cs dr w).events.countP Ev.isLock =
      w.events.countP Ev.isLock := by
  unfold unexposeRollback CreateDNSRoute
  cases hc : o.rbCreateRes <;> cases cs <;> cases dr <;> by_cases hs : o.rbSaveOk <;>
    simp [hs, List.countP_append, List.countP_cons, List.countP_nil, Ev.isLock]

/-- The `Update` rollback block emits no lock events. -/
lemma countP_isLock_updateRollback (o : UpdateOracle) (orig : Config)
    (cs : Bool) (w : World) :
    (updateRollback o orig cs w).events.countP Ev.isLock =
      w.events.countP Ev.isLock := by
  unfold updateRollback
  cases cs <;> by_cases hs : o.rbSaveOk <;>
    simp [hs, List.countP_append, List.countP_cons, List.countP_nil, Ev.isLock]

/-- The `Expose` emits no lock events on any path. -/
lemma countP_isLock_Expose (o : ExposeOracle) (domain : String) (w : World)
    (subdomain port serviceType : String) :
    ((Expose o domain w subdomain port serviceType).2.events).countP Ev.isLock =
      w.events.countP Ev.isLock := by
  unfold Expose
  rcases ValidateSubdomain subdomain with e | u
  · simp
  rcases ValidatePort port with e | u
  · simp
  rcases ValidateServiceType serviceType with e | u
  · simp
  rcases hcatch : EnsureCatchAllLast w.disk with e | u
  · simp [hcatch, List.countP_append, List.countP_cons, List.countP_nil, Ev.isLock]
  rcases hfind : FindIngressIndex w.disk (HostnameFor domain subdomain) with _ | idx
  · by_cases hs : o.saveOk = true
    · rcases hc : o.createRes with _ | _ | _ <;>
        by_cases hr : o.restartOk = true <;>
        simp [hcatch, hfind, hs, hc, hr, CreateDNSRoute, countP_isLock_exposeRollback,
          List.countP_append, List.countP_cons, List.countP_nil, Ev.isLock]
    · simp [hcatch, hfind, hs, countP_isLock_exposeRollback,
        List.countP_append, List.countP_cons, List.countP_nil, Ev.isLock]
  · simp only [hcatch, hfind]
    split <;>
      simp [List.countP_append, List.countP_cons, List.countP_nil, Ev.isLock]

/-- The `Unexpose` emits no lock events on any path. -/
lemma countP_isLock_Unexpose (o : UnexposeOracle) (domain : String) (w : World)
    (subdomain : String) :
    ((Unexpose o domain w subdomain).2.events).countP Ev.isLock =
      w.events.countP Ev.isLock := by
  unfold Unexpose
  rcases ValidateSubdomain subdomain with e | u
  · simp
  rcases hfind : FindIngressIndex w.disk (HostnameFor domain subdomain) with _ | idx
  · simp [hfind, List.countP_append, List.countP_cons, List.countP_nil, Ev.isLock]
  · by_cases hs : o.saveOk = true
    · rcases hrm : (RemoveDNSRoute o.listOk o.deleteOk w.dns
          (HostnameFor domain subdomain)).1 with e | u <;>
        by_cases hr : o.restartOk = true <;>
        simp [hfind, hs, hrm, hr, countP_isLock_unexposeRollback,
          List.countP_append, List.countP_cons, List.countP_nil, Ev.isLock]
    · simp [hfind, hs, countP_isLock_unexposeRollback,
        List.countP_append, List.countP_cons, List.countP_nil, Ev.isLock]

/-- The `Update` emits no lock events on any path. -/
lemma countP_isLock_Update (o : UpdateOracle) (domain : String) (w : World)
    (subdomain port serviceType : String) :
    ((Update o domain w subdomain port serviceType).2.events).countP Ev.isLock =
      w.events.countP Ev.isLock := by
  unfold Update
  rcases ValidateSubdomain subdomain with e | u
  · simp
  rcases ValidatePort port with e | u
  · simp
  rcases ValidateServiceType serviceType with e | u
  · simp
  rcases hmod : ModifySubdomainPort domain w.disk subdomain port serviceType with e | newCfg
  · simp [hmod, countP_isLock_updateRollback,
      List.countP_append, List.countP_cons, List.countP_nil, Ev.isLock]
  · by_cases hs : o.saveOk = true <;> by_cases hr : o.restartOk = true <;>
      simp [hmod, hs, hr, countP_isLock_updateRollback,
        List.countP_append, List.countP_cons, List.countP_nil, Ev.isLock]

/-! ### Concrete fixtures used to instantiate the claims -/

/-- A world whose config holds only the catch-all rule. -/
def sampleWorld : World :=
  ⟨⟨"t", "cred", [⟨"", "http_status:404"⟩]⟩, [], 0, [], []⟩

/-- A world whose config already maps `api.example.com`, catch-all last. -/
def presentWorld : World :=
  ⟨⟨"t", "cred", [⟨"api.example.com", "http://localhost:8080"⟩, ⟨"", "http_status:404"⟩]⟩,
    ["api.example.com"], 0, [], []⟩

/-- A world whose config has a mapped hostname but NO catch-all rule. -/
def noCatchWorld : World :=
  ⟨⟨"t", "cred", [⟨"api.example.com", "http://localhost:8080"⟩]⟩,
    ["api.example.com"], 0, [], []⟩

/-- A world whose config has no ingress rules at all. -/
def emptyIngressWorld : World :=
  ⟨⟨"t", "cred", []⟩, [], 0, [], []⟩

/-- The `Expose` oracle: every external call succeeds. -/
def allOkExpose : ExposeOracle := ⟨true, .ok, true, true, true, true⟩

/-- The `Expose` oracle: the DNS-create call fails, everything else succeeds. -/
def dnsFailExpose : ExposeOracle := ⟨true, .otherError, true, true, true, true⟩

/-- The `Unexpose` oracle: every external call succeeds. -/
def allOkUnexpose : UnexposeOracle := ⟨true, true, true, true, .ok, true⟩

/-! ### C1 — rollback after a failed DNS-create step -/

/-- C1, counterexample: on the catch-all-only config, an `Expose` whose
DNS-create step fails deterministically leaves a RouteSet on disk that
DIFFERS from the one before the call — the claimed byte-identical
restoration does not happen (the deferred block returns early because
`dnsAdded` is still false). -/
theorem orb_c1_counterexample :
    (Expose dnsFailExpose "example.com" sampleWorld "api" "8080" "http").1 =
        .error .dnsCreateFailed ∧
      (Expose dnsFailExpose "example.com" sampleWorld "api" "8080" "http").2.disk ≠
        sampleWorld.disk := by
  decide

/-- C1, amended: when the save succeeded and the DNS-create step then
fails, `Expose` returns the wrapped DNS error but the NEWLY SAVED RouteSet
(with the inserted rule) stays on disk; no compensation runs on this
path. -/
theorem orb_c1_amended (o : ExposeOracle) (domain : String) (w : World)
    (subdomain port serviceType : String)
    (hsub : matchesSubdomainRe subdomain = true)
    (hport : matchesPortRe port = true)
    (hty : ValidServiceTypes.contains serviceType = true)
    (hinv : EnsureCatchAllLast w.disk = .ok ())
    (hfresh : FindIngressIndex w.disk (HostnameFor domain subdomain) = none)
    (hsave : o.saveOk = true) (hcreate : o.createRes ≠ .ok) :
    (Expose o domain w subdomain port serviceType).1 = .error .dnsCreateFailed ∧
      (Expose o domain w subdomain port serviceType).2.disk =
        { w.disk with ingress := w.disk.ingress.dropLast ++
            [⟨HostnameFor domain subdomain, ServiceURL port serviceType⟩,
              w.disk.ingress.getLastD ⟨"", ""⟩] } ∧
      (Expose o domain w subdomain port serviceType).2.dns = w.dns ∧
      (Expose o domain w subdomain port serviceType).2.restarts = w.restarts := by
  have h := expose_dnsfail_run o domain w subdomain port serviceType
    hsub hport hty hinv hfresh hsave hcreate
  rw [h]
  exact ⟨rfl, rfl, rfl, rfl⟩

/-- C1, witness for the amended theorem at a concrete input. -/
theorem orb_c1_amended_witness :
    (Expose dnsFailExpose "example.com" sampleWorld "api" "8080" "http").1 =
        .error .dnsCreateFailed ∧
      (Expose dnsFailExpose "example.com" sampleWorld "api" "8080" "http").2.disk =
        { sampleWorld.disk with ingress := sampleWorld.disk.ingress.dropLast ++
            [⟨HostnameFor "example.com" "api", ServiceURL "8080" "http"⟩,
              sampleWorld.disk.ingress.getLastD ⟨"", ""⟩] } ∧
      (Expose dnsFailExpose "example.com" sampleWorld "api" "8080" "http").2.dns =
        sampleWorld.dns ∧
      (Expose dnsFailExpose "example.com" sampleWorld "api" "8080" "http").2.restarts =
        sampleWorld.restarts :=
  orb_c1_amended dnsFailExpose "example.com" sampleWorld "api" "8080" "http"
    (by decide) (by decide) (by decide) (by decide) (by decide) (by decide) (by decide)

/-! ### C3 — idempotence of the DNS gateway -/

/-- C3, counterexample: `CreateDNSRoute` surfaces the provider
"already exists" response as a failure instead of success, and
`RemoveDNSRoute` fails when no record for the hostname exists — neither
call is idempotent in intent. -/
theorem orb_c3_counterexample :
    (CreateDNSRoute .alreadyExists ["api.example.com"] "api.example.com").1 =
        .error .dnsCreateFailed ∧
      (RemoveDNSRoute true true [] "api.example.com").1 =
        .error (.dnsNoRecord "api.example.com") := by
  decide

/-- C3, amended: `CreateDNSRoute` maps every provider error — the
already-exists rejection included — to a failure (leaving the zone
unchanged), and `RemoveDNSRoute` fails with the "no DNS record found"
error whenever the zone holds no record for the hostname, including when
it runs as the compensation for a create that wrote nothing. -/
theorem orb_c3_amended (dns : List String) (hostname : String)
    (hnone : dns.filter (· = hostname) = []) :
    CreateDNSRoute .alreadyExists dns hostname = (.error .dnsCreateFailed, dns) ∧
      CreateDNSRoute .otherError dns hostname = (.error .dnsCreateFailed, dns) ∧
      RemoveDNSRoute true true dns hostname = (.error (.dnsNoRecord hostname), dns) := by
  refine ⟨rfl, rfl, ?_⟩
  unfold RemoveDNSRoute
  simp [hnone]

/-- C3, witness for the amended theorem at a concrete input. -/
theorem orb_c3_amended_witness :
    CreateDNSRoute .alreadyExists [] "api.example.com" =
        (.error .dnsCreateFailed, []) ∧
      CreateDNSRoute .otherError [] "api.example.com" =
        (.error .dnsCreateFailed, []) ∧
      RemoveDNSRoute true true [] "api.example.com" =
        (.error (.dnsNoRecord "api.example.com"), []) :=
  orb_c3_amended [] "api.example.com" (by decide)

/-! ### C7 — the catch-all precondition -/

/-- C7, counterexample: `Unexpose` performs NO catch-all check — on a
config whose single rule is a mapped hostname and no catch-all, it
succeeds and mutates the RouteSet instead of failing as a hard
precondition violation. -/
theorem orb_c7_counterexample :
    (Unexpose allOkUnexpose "example.com" noCatchWorld "api").1 = .ok () ∧
      (Unexpose allOkUnexpose "example.com" noCatchWorld "api").2.disk ≠
        noCatchWorld.disk := by
  decide

/-- C7, amended: only `Expose` treats an empty or catch-all-less RouteSet
as a hard precondition failure, erroring right after the load with no
mutation; `Unexpose` and `Update` perform no such check. -/
theorem orb_c7_amended (o : ExposeOracle) (domain : String) (w : World)
    (subdomain port serviceType : String) (e : Err)
    (hsub : matchesSubdomainRe subdomain = true)
    (hport : matchesPortRe port = true)
    (hty : ValidServiceTypes.contains serviceType = true)
    (hinv : EnsureCatchAllLast w.disk = .error e) :
    (Expose o domain w subdomain port serviceType).1 = .error e ∧
      (Expose o domain w subdomain port serviceType).2.disk = w.disk ∧
      (Expose o domain w subdomain port serviceType).2.dns = w.dns ∧
      (Expose o domain w subdomain port serviceType).2.restarts = w.restarts := by
  have h := expose_precondition_run o domain w subdomain port serviceType e
    hsub hport hty hinv
  rw [h]
  exact ⟨rfl, rfl, rfl, rfl⟩

/-- C7, witness for the amended theorem at a concrete input (the empty
ingress list). -/
theorem orb_c7_amended_witness :
    (Expose allOkExpose "example.com" emptyIngressWorld "api" "8080" "http").1 =
        .error .noIngressRules ∧
      (Expose allOkExpose "example.com" emptyIngressWorld "api" "8080" "http").2.disk =
        emptyIngressWorld.disk ∧
      (Expose allOkExpose "example.com" emptyIngressWorld "api" "8080" "http").2.dns =
        emptyIngressWorld.dns ∧
      (Expose allOkExpose "example.com" emptyIngressWorld "api" "8080" "http").2.restarts =
        emptyIngressWorld.restarts :=
  orb_c7_amended allOkExpose "example.com" emptyIngressWorld "api" "8080" "http"
    .noIngressRules (by decide) (by decide) (by decide) (by decide)

/-! ### C10 — Unexpose of an unmapped hostname -/

/-- C10: an `Unexpose` for a hostname that is not in the loaded RouteSet
fails with the "not currently exposed" error and performs no side effect:
the config is not written, no DNS call is made, and the service is not
restarted (the only event is the config read). -/
theorem orb_c10_unexpose_missing (o : UnexposeOracle) (domain : String)
    (w : World) (subdomain : String)
    (hsub : matchesSubdomainRe subdomain = true)
    (hidx : FindIngressIndex w.disk (HostnameFor domain subdomain) = none) :
    Unexpose o domain w subdomain =
      (.error (.notExposed (HostnameFor domain subdomain)),
        { w with events := w.events ++ [.configLoad] }) :=
  unexpose_notfound_run o domain w subdomain hsub hidx

/-- C10, witness at a concrete input. -/
theorem orb_c10_unexpose_missing_witness :
    Unexpose allOkUnexpose "example.com" sampleWorld "db" =
      (.error (.notExposed (HostnameFor "example.com" "db")),
        { sampleWorld with events := sampleWorld.events ++ [.configLoad] }) :=
  orb_c10_unexpose_missing allOkUnexpose "example.com" sampleWorld "db"
    (by decide) (by decide)

/-! ### C4 — Expose on an already-mapped hostname -/

/-- C4: when the hostname is already present in the loaded RouteSet,
`Expose` returns success if the existing rule's target equals the
requested target and the conflict error otherwise, and in both cases the
world is untouched: no config write, no DNS call, no restart (the only
event is the config read). -/
theorem orb_c4_idempotent_or_conflict (o : ExposeOracle) (domain : String)
    (w : World) (subdomain port serviceType : String) (idx : Nat)
    (hsub : matchesSubdomainRe subdomain = true)
    (hport : matchesPortRe port = true)
    (hty : ValidServiceTypes.contains serviceType = true)
    (hinv : EnsureCatchAllLast w.disk = .ok ())
    (hidx : FindIngressIndex w.disk (HostnameFor domain subdomain) = some idx) :
    (Expose o domain w subdomain port serviceType).1 =
      (if ((w.disk.ingress.get? idx).getD ⟨"", ""⟩).service = ServiceURL port serviceType
        then .ok ()
        else .error (.conflict (HostnameFor domain subdomain)
          ((w.disk.ingress.get? idx).getD ⟨"", ""⟩).service)) ∧
      (Expose o domain w subdomain port serviceType).2.disk = w.disk ∧
      (Expose o domain w subdomain port serviceType).2.dns = w.dns ∧
      (Expose o domain w subdomain port serviceType).2.restarts = w.restarts ∧
      (Expose o domain w subdomain port serviceType).2.events =
        w.events ++ [.configLoad] := by
  have h := expose_existing_run o domain w subdomain port serviceType idx
    hsub hport hty hinv hidx
  rw [h]
  exact ⟨rfl, rfl, rfl, rfl, rfl⟩

/-- C4, witness at a concrete input (identical target: idempotent
success). -/
theorem orb_c4_idempotent_or_conflict_witness :
    (Expose allOkExpose "example.com" presentWorld "api" "8080" "http").1 =
      (if ((presentWorld.disk.ingress.get? 0).getD ⟨"", ""⟩).service = ServiceURL "8080" "http"
        then .ok ()
        else .error (.conflict (HostnameFor "example.com" "api")
          ((presentWorld.disk.ingress.get? 0).getD ⟨"", ""⟩).service)) ∧
      (Expose allOkExpose "example.com" presentWorld "api" "8080" "http").2.disk =
        presentWorld.disk ∧
      (Expose allOkExpose "example.com" presentWorld "api" "8080" "http").2.dns =
        presentWorld.dns ∧
      (Expose allOkExpose "example.com" presentWorld "api" "8080" "http").2.restarts =
        presentWorld.restarts ∧
      (Expose allOkExpose "example.com" presentWorld "api" "8080" "http").2.events =
        presentWorld.events ++ [.configLoad] :=
  orb_c4_idempotent_or_conflict allOkExpose "example.com" presentWorld "api" "8080" "http" 0
    (by decide) (by decide) (by decide) (by decide) (by decide)

/-! ### C6 — successful Expose inserts exactly one rule before the
catch-all -/

/-- C6: a fully successful `Expose` on a well-formed RouteSet with a
fresh hostname inserts exactly the one new rule immediately before the
catch-all, leaving every prior rule in its original position and the
catch-all last; exactly one DNS record is created, the service is
restarted exactly once, and no Access (authorization) object is touched —
the event trace is precisely load, save, one DNS create, one restart. -/
theorem orb_c6_insert_before_catchall (o : ExposeOracle) (domain : String)
    (w : World) (subdomain port serviceType : String)
    (hsub : matchesSubdomainRe subdomain = true)
    (hport : matchesPortRe port = true)
    (hty : ValidServiceTypes.contains serviceType = true)
    (hinv : EnsureCatchAllLast w.disk = .ok ())
    (hfresh : FindIngressIndex w.disk (HostnameFor domain subdomain) = none)
    (hsave : o.saveOk = true) (hcreate : o.createRes = .ok)
    (hrestart : o.restartOk = true) :
    Expose o domain w subdomain port serviceType =
      (.ok (),
        ⟨{ w.disk with ingress := w.disk.ingress.dropLast ++
            [⟨HostnameFor domain subdomain, ServiceURL port serviceType⟩,
              w.disk.ingress.getLastD ⟨"", ""⟩] },
          w.dns ++ [HostnameFor domain subdomain],
          w.restarts + 1,
          w.accessApps,
          w.events ++ [.configLoad, .configSave,
            .dnsCreate (HostnameFor domain subdomain), .restart]⟩) :=
  expose_success_run o domain w subdomain port serviceType
    hsub hport hty hinv hfresh hsave hcreate hrestart

/-- C6, witness: the spec's example — exposing `api` at port 8080 over
http on the catch-all-only RouteSet. -/
theorem orb_c6_insert_before_catchall_witness :
    Expose allOkExpose "example.com" sampleWorld "api" "8080" "http" =
      (.ok (),
        ⟨{ sampleWorld.disk with ingress := sampleWorld.disk.ingress.dropLast ++
            [⟨HostnameFor "example.com" "api", ServiceURL "8080" "http"⟩,
              sampleWorld.disk.ingress.getLastD ⟨"", ""⟩] },
          sampleWorld.dns ++ [HostnameFor "example.com" "api"],
          sampleWorld.restarts + 1,
          sampleWorld.accessApps,
          sampleWorld.events ++ [.configLoad, .configSave,
            .dnsCreate (HostnameFor "example.com" "api"), .restart]⟩) :=
  orb_c6_insert_before_catchall allOkExpose "example.com" sampleWorld "api" "8080" "http"
    (by decide) (by decide) (by decide) (by decide) (by decide) (by decide) (by decide)
    (by decide)

/-! ### C5 — Expose then Unexpose round-trip -/

/-- Non-emptiness of the rule list under the catch-all invariant. -/
lemma ingress_ne_nil_of_catchAll (cfg : Config)
    (hinv : EnsureCatchAllLast cfg = .ok ()) : cfg.ingress ≠ [] := by
  intro h0
  simp [EnsureCatchAllLast, h0] at hinv

/-- C5: on a RouteSet satisfying the catch-all invariant and a subdomain
not present in it, a fully successful `Expose` followed by a fully
successful `Unexpose` returns the RouteSet on disk to exactly the
original value (round-trip identity). -/
theorem orb_c5_roundtrip (oE : ExposeOracle) (oU : UnexposeOracle)
    (domain : String) (w : World) (subdomain port serviceType : String)
    (hsub : matchesSubdomainRe subdomain = true)
    (hport : matchesPortRe port = true)
    (hty : ValidServiceTypes.contains serviceType = true)
    (hinv : EnsureCatchAllLast w.disk = .ok ())
    (hfresh : ∀ r ∈ w.disk.ingress, r.hostname ≠ HostnameFor domain subdomain)
    (hsave : oE.saveOk = true) (hcreate : oE.createRes = .ok)
    (hrestart : oE.restartOk = true)
    (husave : oU.saveOk = true) (hulist : oU.listOk = true)
    (hudel : oU.deleteOk = true) (hurestart : oU.restartOk = true) :
    (Expose oE domain w subdomain port serviceType).1 = .ok () ∧
      (Unexpose oU domain (Expose oE domain w subdomain port serviceType).2 subdomain).1 =
        .ok () ∧
      (Unexpose oU domain (Expose oE domain w subdomain port serviceType).2 subdomain).2.disk =
        w.disk := by
  have hne : w.disk.ingress ≠ [] := ingress_ne_nil_of_catchAll w.disk hinv
  have hfreshIdx : FindIngressIndex w.disk (HostnameFor domain subdomain) = none := by
    unfold FindIngressIndex
    exact (findIngressIdx_eq_none_iff _ _).mpr hfresh
  have hE := expose_success_run oE domain w subdomain port serviceType
    hsub hport hty hinv hfreshIdx hsave hcreate hrestart
  rw [hE]
  have hfreshDrop : ∀ r ∈ w.disk.ingress.dropLast,
      r.hostname ≠ HostnameFor domain subdomain :=
    fun r hr => hfresh r (mem_of_mem_dropLast hr)
  have hidx1 : findIngressIdx
      (w.disk.ingress.dropLast ++
        [⟨HostnameFor domain subdomain, ServiceURL port serviceType⟩,
          w.disk.ingress.getLastD ⟨"", ""⟩])
      (HostnameFor domain subdomain) = some w.disk.ingress.dropLast.length := by
    rw [findIngressIdx_append _ _ _ hfreshDrop]
    simp [findIngressIdx]
  have hrec : ((w.dns ++ [HostnameFor domain subdomain]).filter
      (· = HostnameFor domain subdomain)) ≠ [] := by
    simp [List.filter_append]
  have hU := unexpose_success_run oU domain
    (⟨{ w.disk with ingress := w.disk.ingress.dropLast ++
        [⟨HostnameFor domain subdomain, ServiceURL port serviceType⟩,
          w.disk.ingress.getLastD ⟨"", ""⟩] },
      w.dns ++ [HostnameFor domain subdomain],
      w.restarts + 1,
      w.accessApps,
      w.events ++ [.configLoad, .configSave,
        .dnsCreate (HostnameFor domain subdomain), .restart]⟩ : World)
    subdomain w.disk.ingress.dropLast.length hsub (by exact hidx1)
    husave hulist hudel (by exact hrec) hurestart
  rw [hU]
  have hing : (w.disk.ingress.dropLast ++
      [⟨HostnameFor domain subdomain, ServiceURL port serviceType⟩,
        w.disk.ingress.getLastD ⟨"", ""⟩]).eraseIdx w.disk.ingress.dropLast.length =
      w.disk.ingress := by
    rw [eraseIdx_append_middle, dropLast_append_getLastD _ _ hne]
  refine ⟨rfl, rfl, ?_⟩
  have hlen : w.disk.ingress.length - 1 = w.disk.ingress.dropLast.length := by
    simp [List.length_dropLast]
  simp only [hlen, ← List.getLastD_eq_getLast?, hing]

/-- C5, witness at a concrete input: expose then unexpose `api` on the
catch-all-only RouteSet. -/
theorem orb_c5_roundtrip_witness :
    (Expose allOkExpose "example.com" sampleWorld "api" "8080" "http").1 = .ok () ∧
      (Unexpose allOkUnexpose "example.com"
        (Expose allOkExpose "example.com" sampleWorld "api" "8080" "http").2 "api").1 =
        .ok () ∧
      (Unexpose allOkUnexpose "example.com"
        (Expose allOkExpose "example.com" sampleWorld "api" "8080" "http").2 "api").2.disk =
        sampleWorld.disk :=
  orb_c5_roundtrip allOkExpose allOkUnexpose "example.com" sampleWorld "api" "8080" "http"
    (by decide) (by decide) (by decide) (by decide) (by decide) (by decide) (by decide)
    (by decide) (by decide) (by decide) (by decide) (by decide)

/-! ### C2 — the host-wide advisory lock -/

/-- C2, counterexample: a successful `Expose` of the tunnel `Service`
writes the config (a `configSave` event is in its trace) yet never
acquires the host-wide lock — no `lockAcquire` event occurs.  The mutating
service operations do not run under `withLock`. -/
theorem orb_c2_counterexample :
    Ev.configSave ∈
        (Expose allOkExpose "example.com" sampleWorld "api" "8080" "http").2.events ∧
      Ev.lockAcquire ∉
        (Expose allOkExpose "example.com" sampleWorld "api" "8080" "http").2.events := by
  decide

/-- C2, amended: the tunnel `Service` operations `Expose`, `Unexpose` and
`Update` acquire no lock on any path (their traces contain no lock
events); the `withLock` helper of the legacy command layer does have the
claimed shape — it fails with the lock-timeout error, changing nothing,
when the lock is held past the bounded wait, and on every other path it
runs the body and releases the lock last. -/
theorem orb_c2_amended :
    (∀ (oE : ExposeOracle) (oU : UnexposeOracle) (oT : UpdateOracle)
        (domain : String) (w : World) (s p t : String),
      ((Expose oE domain w s p t).2.events).countP Ev.isLock =
          w.events.countP Ev.isLock ∧
        ((Unexpose oU domain w s).2.events).countP Ev.isLock =
          w.events.countP Ev.isLock ∧
        ((Update oT domain w s p t).2.events).countP Ev.isLock =
          w.events.countP Ev.isLock) ∧
      (∀ (fn : World → Except Err Unit × World) (w : World),
        withLock .heldTimeout fn w = (.error .lockTimeout, w)) ∧
      (∀ (scen : LockScenario) (fn : World → Except Err Unit × World) (w : World),
        withLock scen fn w = (.error .lockTimeout, w) ∨
          (withLock scen fn w).2.events.getLast? = some .lockRelease) := by
  refine ⟨fun oE oU oT domain w s p t =>
      ⟨countP_isLock_Expose oE domain w s p t,
        countP_isLock_Unexpose oU domain w s,
        countP_isLock_Update oT domain w s p t⟩,
    fun fn w => rfl, ?_⟩
  intro scen fn w
  cases scen with
  | heldTimeout => exact Or.inl rfl
  | free => exact Or.inr (by simp [withLock, List.getLast?_concat])
  | heldReleasedInTime => exact Or.inr (by simp [withLock, List.getLast?_concat])

/-! ### C8 — grant on a non-Public access level -/

/-- Access oracle: every API call succeeds. -/
def grantOracle : AccessOracle := ⟨true, true, true, true⟩

/-- A provider-side access state with no applications, policies or
groups. -/
def emptyAccess : AccessState := ⟨[], [], []⟩

/-- C8: for a grant on a non-Public level, the `orb-<hostname>`
authorization container is created and the owner rule is issued at
precedence 1; when the level is not `"private"` and its name resolves to
no provider-side group, the grant fails with the group-not-found error
(telling the caller to create the group first) with no group rule issued
and no fallback; a `"public"` level creates no authorization object at
all. -/
theorem orb_c8_grant (o : AccessOracle) (st : AccessState)
    (hostname accessLevel userEmail : String)
    (hpub : accessLevel ≠ "public")
    (happ : o.appCreateOk = true) (howner : o.ownerPolicyOk = true)
    (hgl : o.groupListOk = true)
    (hfind : st.groups.find? (fun g => g.1 = accessLevel) = none) :
    CreateAccessPolicy o st hostname accessLevel userEmail =
      (if accessLevel = "private"
        then (.ok (),
          ⟨st.apps ++ ["orb-" ++ hostname],
            st.policies ++ [⟨"orb-" ++ hostname, "orb-" ++ hostname ++ "-owner", 1,
              .email userEmail⟩],
            st.groups⟩)
        else (.error (.groupNotFound accessLevel),
          ⟨st.apps ++ ["orb-" ++ hostname],
            st.policies ++ [⟨"orb-" ++ hostname, "orb-" ++ hostname ++ "-owner", 1,
              .email userEmail⟩],
            st.groups⟩)) ∧
      CreateAccessPolicy o st hostname "public" userEmail = (.ok (), st) := by
  constructor
  · by_cases hpriv : accessLevel = "private" <;>
      simp [CreateAccessPolicy, hpub, happ, howner, hgl, hfind, hpriv]
  · simp [CreateAccessPolicy]

/-- C8, witness at a concrete input: a group level whose name resolves to
no group. -/
theorem orb_c8_grant_witness :
    CreateAccessPolicy grantOracle emptyAccess "api.example.com" "friends" "me@example.com" =
      (if "friends" = "private"
        then (.ok (),
          ⟨emptyAccess.apps ++ ["orb-" ++ "api.example.com"],
            emptyAccess.policies ++ [⟨"orb-" ++ "api.example.com",
              "orb-" ++ "api.example.com" ++ "-owner", 1, .email "me@example.com"⟩],
            emptyAccess.groups⟩)
        else (.error (.groupNotFound "friends"),
          ⟨emptyAccess.apps ++ ["orb-" ++ "api.example.com"],
            emptyAccess.policies ++ [⟨"orb-" ++ "api.example.com",
              "orb-" ++ "api.example.com" ++ "-owner", 1, .email "me@example.com"⟩],
            emptyAccess.groups⟩)) ∧
      CreateAccessPolicy grantOracle emptyAccess "api.example.com" "public" "me@example.com" =
        (.ok (), emptyAccess) :=
  orb_c8_grant grantOracle emptyAccess "api.example.com" "friends" "me@example.com"
    (by decide) (by decide) (by decide) (by decide) (by decide)

/-! ### C9 — revoking only the group rule -/

/-- Revoke oracle: every API call succeeds. -/
def revokeOracle : RevokeOracle := ⟨true, true, true⟩

/-- A provider-side access state holding the `orb-api.example.com`
application with its owner (precedence 1) and group (precedence 2)
policies. -/
def groupedAccess : AccessState :=
  ⟨["orb-api.example.com"],
    [⟨"orb-api.example.com", "orb-api.example.com-owner", 1, .email "me@example.com"⟩,
      ⟨"orb-api.example.com", "orb-api.example.com-group", 2, .group "gid1"⟩],
    [("friends", "gid1")]⟩

/-- C9: `RevokeGroupAccess` succeeds and removes exactly the (at most
one) group policy when the application exists, and is a no-op when the
application is absent; a second call is a no-op; the application list is
untouched and every policy other than the group policy — the owner policy
in particular — survives unchanged. -/
theorem orb_c9_revoke (o : RevokeOracle) (st : AccessState) (hostname : String)
    (hla : o.listAppsOk = true) (hlp : o.listPoliciesOk = true)
    (hdel : o.deleteOk = true)
    (huniq : (st.policies.filter (groupPolicyPred hostname)).length ≤ 1) :
    RevokeGroupAccess o st hostname =
      (.ok (), if st.apps.contains ("orb-" ++ hostname)
        then { st with policies := st.policies.eraseP (groupPolicyPred hostname) }
        else st) ∧
      RevokeGroupAccess o (RevokeGroupAccess o st hostname).2 hostname =
        (.ok (), (RevokeGroupAccess o st hostname).2) ∧
      (RevokeGroupAccess o st hostname).2.apps = st.apps ∧
      (RevokeGroupAccess o st hostname).2.policies.filter
          (fun p => !(groupPolicyPred hostname p)) =
        st.policies.filter (fun p => !(groupPolicyPred hostname p)) := by
  have hmain : RevokeGroupAccess o st hostname =
      (.ok (), if st.apps.contains ("orb-" ++ hostname)
        then { st with policies := st.policies.eraseP (groupPolicyPred hostname) }
        else st) := by
    by_cases happ : "orb-" ++ hostname ∈ st.apps
    · by_cases hempty : st.policies.filter (groupPolicyPred hostname) = []
      · have hnone : ∀ p ∈ st.policies, groupPolicyPred hostname p = false := by
          intro p hp
          cases hb : groupPolicyPred hostname p
          · rfl
          · have : p ∈ st.policies.filter (groupPolicyPred hostname) :=
              List.mem_filter.mpr ⟨hp, hb⟩
            simp [hempty] at this
        have herase : st.policies.eraseP (groupPolicyPred hostname) = st.policies :=
          List.eraseP_of_forall_not (by intro a ha; simp [hnone a ha])
        simp [RevokeGroupAccess, hla, hlp, happ, hnone, herase]
        exact fun x hx hpx => hdel
      · have hforall : ¬∀ a ∈ st.policies, groupPolicyPred hostname a = false := by
          intro hall
          apply hempty
          apply List.filter_eq_nil_iff.mpr
          intro a ha
          simp [hall a ha]
        simp [RevokeGroupAccess, hla, hlp, hdel, happ, hforall]
    · simp [RevokeGroupAccess, hla, happ]
  refine ⟨hmain, ?_, ?_, ?_⟩
  · rw [hmain]
    by_cases happ : "orb-" ++ hostname ∈ st.apps
    · have hnone2 : ∀ a ∈ st.policies.eraseP (groupPolicyPred hostname),
          groupPolicyPred hostname a = false := by
        have hempty2 : (st.policies.eraseP (groupPolicyPred hostname)).filter
            (groupPolicyPred hostname) = [] :=
          filter_eraseP_of_le_one _ _ huniq
        intro a ha
        cases hb : groupPolicyPred hostname a
        · rfl
        · have : a ∈ (st.policies.eraseP (groupPolicyPred hostname)).filter
              (groupPolicyPred hostname) :=
            List.mem_filter.mpr ⟨ha, hb⟩
          simp [hempty2] at this
      simp [RevokeGroupAccess, hla, hlp, happ, hnone2]
      intro x hx hpx
      simp [hnone2 x hx] at hpx
    · simp [RevokeGroupAccess, hla, happ]
  · rw [hmain]
    by_cases happ : "orb-" ++ hostname ∈ st.apps <;> simp [happ]
  · rw [hmain]
    by_cases happ : "orb-" ++ hostname ∈ st.apps <;>
      simp [happ, filter_not_eraseP]

/-- C9, witness at a concrete input: the grouped state above. -/
theorem orb_c9_revoke_witness :
    RevokeGroupAccess revokeOracle groupedAccess "api.example.com" =
      (.ok (), if groupedAccess.apps.contains ("orb-" ++ "api.example.com")
        then { groupedAccess with policies :=
          groupedAccess.policies.eraseP (groupPolicyPred "api.example.com") }
        else groupedAccess) ∧
      RevokeGroupAccess revokeOracle
          (RevokeGroupAccess revokeOracle groupedAccess "api.example.com").2
          "api.example.com" =
        (.ok (), (RevokeGroupAccess revokeOracle groupedAccess "api.example.com").2) ∧
      (RevokeGroupAccess revokeOracle groupedAccess "api.example.com").2.apps =
        groupedAccess.apps ∧
      (RevokeGroupAccess revokeOracle groupedAccess "api.example.com").2.policies.filter
          (fun p => !(groupPolicyPred "api.example.com" p)) =
        groupedAccess.policies.filter
          (fun p => !(groupPolicyPred "api.example.com" p)) :=
  orb_c9_revoke revokeOracle groupedAccess "api.example.com"
    (by decide) (by decide) (by decide) (by decide)

end Orb
